import Mathlib

/-!
Shallow embedding of the round lifecycle manager (`RoundService`) and the
task generation orchestrator (`TaskingService`) of simple-subnet-api
(src/lib/tasking-service.js), together with theorems settling the spec
claims about them.

Times are modelled as integers (milliseconds); the database tables
`checker_rounds` and `checker_subnet_tasks` are modelled as lists of rows;
the store-assigned monotonically increasing row id is modelled by a
`nextId` counter carried with the rounds table.
-/

namespace SubnetApi

/-! ### Task Generation Orchestrator (`TaskingService`) -/

/-- The observable outcome of awaiting a sampler call: it throws/rejects,
resolves to a non-array value, or resolves to an array of task payloads
(payloads are opaque; we model the JSON-serialized form as a `String`). -/
inductive SamplerOutcome where
  | throws (msg : String)
  | nonList (tag : String)
  | list (tasks : List String)
deriving Repr, DecidableEq

/-- A sampler: receives the capacity hint (`maxTasksPerSubnet`) and produces
an outcome. -/
abbrev SamplerFn := Nat → SamplerOutcome

/-- A JavaScript value passed as the `sampleFn` argument of
`registerTaskSampler`: either a function, or any non-function value
(`null`, a number, ...), identified only by a tag. -/
inductive JsVal where
  | function (f : SamplerFn)
  | nonFunction (tag : String)

def JsVal.isFunction : JsVal → Bool
  | .function _ => true
  | .nonFunction _ => false

structure TaskingConfig where
  maxTasksPerSubnet : Nat
deriving Repr, DecidableEq

/-- A row of the `checker_subnet_tasks` table. -/
structure TaskRow where
  round_id : Nat
  subnet : String
  task_definition : String
deriving Repr, DecidableEq

abbrev TaskDB := List TaskRow

/-- The `#taskSamplers` record: a JS object maps keys to values; insertion
order of keys is preserved, re-assignment keeps the key position. -/
abbrev SamplerRegistry := List (String × SamplerFn)

def registryHas (reg : SamplerRegistry) (k : String) : Bool :=
  reg.any (fun p => p.1 == k)

/-- `this.#taskSamplers[subnet] = sampleFn`: a JS object holds at most one
value per key; assignment overwrites the existing entry in place (keeping
its key position) or appends a new one. -/
def registrySet : SamplerRegistry → String → SamplerFn → SamplerRegistry
  | [], k, f => [(k, f)]
  | p :: t, k, f => if p.1 == k then (k, f) :: t else p :: registrySet t k f

def registryGet (reg : SamplerRegistry) (k : String) : Option SamplerFn :=
  (reg.find? (fun p => p.1 == k)).map (fun p => p.2)

/-- `Object.keys(this.#taskSamplers)` -/
def registryKeys (reg : SamplerRegistry) : List String :=
  reg.map (fun p => p.1)

/-- The mutable state of a `TaskingService` instance: its sampler registry
and the task table it writes to. -/
structure TaskingState where
  taskSamplers : SamplerRegistry
  taskDb : TaskDB

/-- `TaskingService.registerTaskSampler(subnet, sampleFn)`:
throws when `typeof sampleFn !== 'function'`, otherwise records the
sampler (overwriting any previous one for the same subnet).  Storage is
never touched. -/
def registerTaskSampler (st : TaskingState) (subnet : String) (sampleFn : JsVal) :
    Except String TaskingState :=
  match sampleFn with
  | .nonFunction _ =>
      .error ("Task sampler for subnet " ++ subnet ++ " must be a function")
  | .function f =>
      .ok { st with taskSamplers := registrySet st.taskSamplers subnet f }

/-- A single `checker_subnet_tasks` row. -/
def taskRow (roundId : Nat) (subnet : String) (t : String) : TaskRow :=
  { round_id := roundId, subnet := subnet, task_definition := t }

/-- `TaskingService.#storeTasks`: one batch insert of all payloads for
`(roundId, subnet)` (success path of the per-source transaction). -/
def storeTasks (db : TaskDB) (roundId : Nat) (subnet : String) (tasks : List String) : TaskDB :=
  db ++ tasks.map (fun t => taskRow roundId subnet t)

/-- Body of `TaskingService.#generateTasksForSubnet` before its `catch`:
look up the sampler, call it with the capacity hint
`config.maxTasksPerSubnet`; a throw propagates as an error, a non-array
or empty result inserts nothing, a non-empty array is stored in full. -/
def generateTasksForSubnetBody (cfg : TaskingConfig) (reg : SamplerRegistry)
    (db : TaskDB) (roundId : Nat) (subnet : String) : Except String TaskDB :=
  match registryGet reg subnet with
  | none => .ok db
  | some taskSamplingFn =>
    match taskSamplingFn cfg.maxTasksPerSubnet with
    | .throws msg => .error msg
    | .nonList _ => .ok db
    | .list tasks =>
      .ok (if 0 < tasks.length then storeTasks db roundId subnet tasks else db)

/-- `TaskingService.#generateTasksForSubnet`: the whole body is wrapped in
`try { ... } catch (error) { console.error(...) }` — a sampler or storage
error is logged and swallowed, leaving the table unchanged for that
subnet. -/
def generateTasksForSubnet (cfg : TaskingConfig) (reg : SamplerRegistry)
    (db : TaskDB) (roundId : Nat) (subnet : String) : TaskDB :=
  match generateTasksForSubnetBody cfg reg db roundId subnet with
  | .ok db' => db'
  | .error _ => db

/-- `TaskingService.generateTasksForRound(roundId)`: with no registered
samplers it returns immediately; otherwise it fans out over
`Object.keys(this.#taskSamplers)` (concurrently in JS; each subnet inserts
into its own rows, so we model one serialization of the fan-out as a
fold).  Because every per-subnet branch catches its own errors, the
overall call never rejects — reflected in the result always being `ok`. -/
def generateTasksForRound (cfg : TaskingConfig) (reg : SamplerRegistry)
    (db : TaskDB) (roundId : Nat) : Except String TaskDB :=
  let subnets := registryKeys reg
  if subnets.isEmpty then
    .ok db
  else
    .ok (subnets.foldl (fun d s => generateTasksForSubnet cfg reg d roundId s) db)

/-! ### Round Lifecycle Manager (`RoundService`) -/

/-- A row of the `checker_rounds` table. -/
structure Round where
  id : Nat
  start_time : Int
  end_time : Int
  active : Bool
deriving Repr, DecidableEq

/-- The `checker_rounds` table plus the store's id sequence. -/
structure RoundsDB where
  rounds : List Round
  nextId : Nat
deriving Repr, DecidableEq

/-- Well-formedness: every stored id was assigned by the sequence, hence is
below `nextId`. -/
def RoundsDB.wf (db : RoundsDB) : Bool :=
  db.rounds.all (fun r => r.id < db.nextId)

/-- Number of rows with `active = true`. -/
def countActive (db : RoundsDB) : Nat :=
  db.rounds.countP (fun r => r.active)

structure RoundConfig where
  roundDurationMs : Int
  checkRoundIntervalMs : Int
deriving Repr, DecidableEq

inductive DbError where
  | insertFailed
deriving Repr, DecidableEq

/-- `SELECT ... WHERE active = true ORDER BY start_time DESC LIMIT 1`:
among the given rows, the one with the greatest `start_time` (ties broken
towards the earlier row, one of the serializations SQL may pick). -/
def selectLatest : List Round → Option Round
  | [] => none
  | r :: rs =>
    match selectLatest rs with
    | none => some r
    | some b => if r.start_time < b.start_time then some b else some r

/-- `RoundService.#getActiveRound` (success path; on a read error the
code catches and returns `null`, a fail-open policy not needed by the
claims below). -/
def RoundsDB.getActiveRound (db : RoundsDB) : Option Round :=
  selectLatest (db.rounds.filter (fun r => r.active))

/-- `RoundService.#createNewRound` (success path): inserts a row with
`start_time = now`, `end_time = now + roundDurationMs` and — in this
revision — `active` already `true` at insertion (the third bound
parameter of the `INSERT` is the literal `true`). -/
def createNewRound (cfg : RoundConfig) (now : Int) (db : RoundsDB) : Round × RoundsDB :=
  let r : Round :=
    { id := db.nextId, start_time := now, end_time := now + cfg.roundDurationMs, active := true }
  (r, { rounds := db.rounds ++ [r], nextId := db.nextId + 1 })

/-- `#createNewRound` including the failure path: a storage write failure
is rethrown to the caller (`throw error` after logging). -/
def createNewRoundE (cfg : RoundConfig) (now : Int) (insertFails : Bool) (db : RoundsDB) :
    Except DbError (Round × RoundsDB) :=
  if insertFails then .error .insertFailed else .ok (createNewRound cfg now db)

/-- `RoundService.#changeRoundActive(roundId, active)`: a single
transactional `UPDATE ... SET active = $1 WHERE id = $2`. -/
def changeRoundActive (db : RoundsDB) (roundId : Nat) (active : Bool) : RoundsDB :=
  { db with rounds := db.rounds.map (fun r => if r.id == roundId then { r with active := active } else r) }

/-- The intermediate states of one execution of
`RoundService.#startNewRound`, in program order: read the previous active
round, insert the new round, generate tasks (which writes only the
`checker_subnet_tasks` table, so the rounds table at that instant is
`dbAtTaskGeneration`), deactivate the previous round, activate the new
one. -/
structure TransitionTrace where
  previous : Option Round
  newRound : Round
  dbAtTaskGeneration : RoundsDB
  dbAfterDeactivate : RoundsDB
  dbFinal : RoundsDB
deriving Repr, DecidableEq

/-- `RoundService.#startNewRound` (success path), keeping every
intermediate state observable. -/
def startNewRoundTrace (cfg : RoundConfig) (now : Int) (db : RoundsDB) : TransitionTrace :=
  let previous := db.getActiveRound
  let newRound := (createNewRound cfg now db).1
  let db1 := (createNewRound cfg now db).2
  let db2 :=
    match previous with
    | some p => changeRoundActive db1 p.id false
    | none => db1
  let db3 := changeRoundActive db2 newRound.id true
  { previous := previous, newRound := newRound,
    dbAtTaskGeneration := db1, dbAfterDeactivate := db2, dbFinal := db3 }

/-- `RoundService.#startNewRound` (success path): the new round and the
final rounds table. -/
def startNewRound (cfg : RoundConfig) (now : Int) (db : RoundsDB) : Round × RoundsDB :=
  ((startNewRoundTrace cfg now db).newRound, (startNewRoundTrace cfg now db).dbFinal)

/-- `#startNewRound` including the round-creation failure path: a failed
insert aborts the transition before any state change and the error
propagates out of `#startNewRound`. -/
def startNewRoundE (cfg : RoundConfig) (now : Int) (insertFails : Bool) (db : RoundsDB) :
    Except DbError (Round × RoundsDB) :=
  match createNewRoundE cfg now insertFails db with
  | .error e => .error e
  | .ok _ => .ok (startNewRound cfg now db)

/-- The in-process state of a `RoundService` instance: the rounds table it
talks to, the `#currentRound` field, and whether the periodic check loop
(`#checkRoundIntervalId`) has been scheduled. -/
structure ServiceState where
  db : RoundsDB
  currentRound : Option Round
  loopScheduled : Bool
deriving Repr, DecidableEq

/-- `RoundService.#initializeRound`: reads the active round; if one
exists it is resumed unconditionally (this revision performs no expiry
check); otherwise a full transition runs. -/
def initializeRoundE (cfg : RoundConfig) (now : Int) (createFails : Bool) (s : ServiceState) :
    Except DbError ServiceState :=
  match s.db.getActiveRound with
  | some r => .ok { s with currentRound := some r }
  | none =>
    match startNewRoundE cfg now createFails s.db with
    | .error e => .error e
    | .ok rdb => .ok { s with db := rdb.2, currentRound := some rdb.1 }

/-- `RoundService.start()`: `try { #initializeRound; #scheduleRoundCheck }
catch (error) { console.error(...) }` — an initialization error is logged
and swallowed (the function resolves normally), and the check loop is not
scheduled in that case. -/
def startService (cfg : RoundConfig) (now : Int) (createFails : Bool) (s : ServiceState) :
    Except DbError ServiceState :=
  match initializeRoundE cfg now createFails s with
  | .ok s' => .ok { s' with loopScheduled := true }
  | .error _ => .ok s

/-- One firing of the `setInterval` callback installed by
`#scheduleRoundCheck`: if the in-memory current round's `end_time` has
passed, run `#startNewRound` (its errors are caught and logged inside the
callback; the success path is modelled). -/
def roundCheckTick (cfg : RoundConfig) (now : Int) (s : ServiceState) : ServiceState :=
  if s.loopScheduled then
    match s.currentRound with
    | none => s
    | some r =>
      if r.end_time ≤ now then
        { s with db := (startNewRound cfg now s.db).2,
                 currentRound := some (startNewRound cfg now s.db).1 }
      else s
  else s

/-! ### Concrete instances used in counterexamples and witnesses -/

/-- The production-like configuration: 1000 ms rounds, 200 ms check
interval (the values of `DEFAULT_CONFIG` in the test suite). -/
def cfgEx : RoundConfig := { roundDurationMs := 1000, checkRoundIntervalMs := 200 }

def tcfgEx : TaskingConfig := { maxTasksPerSubnet := 100 }

def dbEmpty : RoundsDB := { rounds := [], nextId := 0 }

def stEmpty : ServiceState := { db := dbEmpty, currentRound := none, loopScheduled := false }

/-- A round whose `end_time` lies in the past relative to instant `0`. -/
def rPast : Round := { id := 0, start_time := -5000, end_time := -1000, active := true }

/-- Two simultaneously active rounds: the duplicate-active gap state. -/
def rEarly : Round := { id := 0, start_time := 10, end_time := 20, active := true }

def rLate : Round := { id := 1, start_time := 30, end_time := 40, active := true }

def dbDup : RoundsDB := { rounds := [rEarly, rLate], nextId := 2 }

def dbPast : RoundsDB := { rounds := [rPast], nextId := 1 }

def stPast : ServiceState := { db := dbPast, currentRound := none, loopScheduled := false }

/-! ### Helper lemmas about the sampler registry -/

theorem registryGet_set_self (reg : SamplerRegistry) (k : String) (f : SamplerFn) :
    registryGet (registrySet reg k f) k = some f := by
  induction reg with
  | nil => simp [registrySet, registryGet]
  | cons p t ih =>
    by_cases hp : p.1 = k
    · simp [registrySet, registryGet, hp]
    · simp [registrySet, registryGet, hp] at ih ⊢
      exact ih

theorem registryGet_set_other (reg : SamplerRegistry) (k k' : String) (f : SamplerFn)
    (h : k' ≠ k) : registryGet (registrySet reg k f) k' = registryGet reg k' := by
  have hkk : (k == k') = false := beq_eq_false_iff_ne.mpr h.symm
  induction reg with
  | nil =>
    simp [registrySet, registryGet, List.find?, hkk]
  | cons p t ih =>
    by_cases hp : p.1 = k
    · by_cases hp' : p.1 = k'
      · exact absurd (hp' ▸ hp) h
      · have hpk : (p.1 == k) = true := beq_iff_eq.mpr hp
        have hpk' : (p.1 == k') = false := beq_eq_false_iff_ne.mpr hp'
        simp [registrySet, registryGet, List.find?, hkk, hpk, hpk']
    · have hpk : (p.1 == k) = false := beq_eq_false_iff_ne.mpr hp
      by_cases hp' : p.1 = k'
      · have hpk' : (p.1 == k') = true := beq_iff_eq.mpr hp'
        simp [registrySet, registryGet, List.find?, hpk, hpk']
      · have hpk' : (p.1 == k') = false := beq_eq_false_iff_ne.mpr hp'
        simpa [registrySet, registryGet, List.find?, hpk, hpk'] using ih

/-! ### Helper lemmas about `selectLatest` -/

theorem selectLatest_eq_none (rs : List Round) : selectLatest rs = none ↔ rs = [] := by
  cases rs with
  | nil => simp [selectLatest]
  | cons r t =>
    simp only [selectLatest]
    cases h : selectLatest t with
    | none => simp
    | some b =>
      by_cases hlt : r.start_time < b.start_time
      · simp [hlt]
      · simp [hlt]

theorem selectLatest_mem :
    ∀ (rs : List Round) (r : Round), selectLatest rs = some r → r ∈ rs := by
  intro rs
  induction rs with
  | nil => intro r h; simp [selectLatest] at h
  | cons y t ih =>
    intro r h
    cases h' : selectLatest t with
    | none =>
      simp only [selectLatest, h'] at h
      cases h
      exact List.mem_cons_self _ _
    | some b =>
      simp only [selectLatest, h'] at h
      by_cases hlt : y.start_time < b.start_time
      · rw [if_pos hlt] at h
        cases h
        exact List.mem_cons_of_mem _ (ih _ h')
      · rw [if_neg hlt] at h
        cases h
        exact List.mem_cons_self _ _

theorem selectLatest_le :
    ∀ (rs : List Round) (r : Round), selectLatest rs = some r →
      ∀ x ∈ rs, x.start_time ≤ r.start_time := by
  intro rs
  induction rs with
  | nil => intro r h; simp [selectLatest] at h
  | cons y t ih =>
    intro r h
    cases h' : selectLatest t with
    | none =>
      have ht : t = [] := (selectLatest_eq_none t).mp h'
      subst ht
      simp only [selectLatest] at h
      cases h
      intro x hx
      rw [List.mem_singleton] at hx
      exact hx ▸ le_refl _
    | some b =>
      simp only [selectLatest, h'] at h
      have hb := ih b h'
      by_cases hlt : y.start_time < b.start_time
      · rw [if_pos hlt] at h
        cases h
        intro x hx
        rcases List.mem_cons.mp hx with hx | hx
        · exact hx ▸ le_of_lt hlt
        · exact hb x hx
      · rw [if_neg hlt] at h
        cases h
        intro x hx
        rcases List.mem_cons.mp hx with hx | hx
        · exact hx ▸ le_refl _
        · exact le_trans (hb x hx) (le_of_not_lt hlt)

theorem getActiveRound_active_mem {db : RoundsDB} {r : Round}
    (h : db.getActiveRound = some r) :
    r.active = true ∧ r ∈ db.rounds := by
  have hm := selectLatest_mem _ _ h
  rw [List.mem_filter] at hm
  exact ⟨hm.2, hm.1⟩

theorem getActiveRound_eq_none {db : RoundsDB} (h : db.getActiveRound = none) :
    ∀ r ∈ db.rounds, r.active = false := by
  have := (selectLatest_eq_none _).mp h
  intro r hr
  by_contra hact
  have : r ∈ db.rounds.filter (fun r => r.active) := by
    rw [List.mem_filter]
    exact ⟨hr, by simpa using hact⟩
  simp_all

/-! ### Claim theorems -/

/-- C5: `registerTaskSampler(s, f)` raises an invalid-argument error naming
`s` iff `f` is not a function; in that case neither the registry nor
storage is touched (the error carries no new state).  If `f` is a
function it becomes the registered sampler for `s` — lookups of `s` in
the updated registry return `f`, and every other subnet's entry is
unchanged — while the task table is not modified. -/
theorem registerTaskSampler_spec (st : TaskingState) (s : String) (v : JsVal) :
    ((registerTaskSampler st s v).isOk = v.isFunction)
    ∧ (v.isFunction = false →
        registerTaskSampler st s v =
          Except.error ("Task sampler for subnet " ++ s ++ " must be a function"))
    ∧ (∀ f, v = JsVal.function f →
        registerTaskSampler st s v =
          Except.ok { st with taskSamplers := registrySet st.taskSamplers s f })
    ∧ (∀ f, registryGet (registrySet st.taskSamplers s f) s = some f)
    ∧ (∀ f s', s' ≠ s →
        registryGet (registrySet st.taskSamplers s f) s' = registryGet st.taskSamplers s') := by
  refine ⟨?_, ?_, ?_, ?_, ?_⟩
  · cases v <;> simp [registerTaskSampler, JsVal.isFunction, Except.isOk, Except.toBool]
  · intro h
    cases v with
    | function f => simp [JsVal.isFunction] at h
    | nonFunction tag => simp [registerTaskSampler]
  · intro f hf
    subst hf
    simp [registerTaskSampler]
  · intro f
    exact registryGet_set_self st.taskSamplers s f
  · intro f s' h
    exact registryGet_set_other st.taskSamplers s s' f h

/-- C5 witness: at a concrete non-function argument the error is raised
with the message naming the subnet, and at a concrete function argument
registration succeeds. -/
theorem registerTaskSampler_spec_witness :
    (registerTaskSampler ⟨[], []⟩ "walrus" (JsVal.nonFunction "null") =
      Except.error "Task sampler for subnet walrus must be a function")
    ∧ (registryGet (registrySet ([] : SamplerRegistry) "walrus" (fun _ => SamplerOutcome.list []))
        "walrus" = some (fun _ => SamplerOutcome.list [])) := by
  refine ⟨?_, ?_⟩
  · have h := (registerTaskSampler_spec ⟨[], []⟩ "walrus" (JsVal.nonFunction "null")).2.1 rfl
    exact h
  · exact (registerTaskSampler_spec ⟨[], []⟩ "walrus" (JsVal.nonFunction "null")).2.2.2.1
      (fun _ => SamplerOutcome.list [])

/-- C8: a freshly created round satisfies
`end_time - start_time = roundDurationMs`, hence `end_time > start_time`
whenever the configured duration is positive. -/
theorem createNewRound_duration (cfg : RoundConfig) (now : Int) (db : RoundsDB) :
    (createNewRound cfg now db).1.end_time - (createNewRound cfg now db).1.start_time
      = cfg.roundDurationMs
    ∧ (0 < cfg.roundDurationMs →
        (createNewRound cfg now db).1.start_time < (createNewRound cfg now db).1.end_time) := by
  constructor
  · simp [createNewRound]
  · intro h
    simp [createNewRound]
    omega

/-- C8 witness: with the concrete 1000 ms configuration the fresh round's
duration is 1000 and its interval is non-degenerate. -/
theorem createNewRound_duration_witness :
    (createNewRound cfgEx 0 dbEmpty).1.end_time - (createNewRound cfgEx 0 dbEmpty).1.start_time
      = cfgEx.roundDurationMs
    ∧ (createNewRound cfgEx 0 dbEmpty).1.start_time < (createNewRound cfgEx 0 dbEmpty).1.end_time := by
  exact ⟨(createNewRound_duration cfgEx 0 dbEmpty).1,
    (createNewRound_duration cfgEx 0 dbEmpty).2 (by decide)⟩

/-- C7: `generateTasksForRound` with zero registered samplers inserts no
rows and raises no error; and a registered source whose sampler resolves
to an empty list or to a non-list value contributes no rows and raises no
error (the per-subnet step leaves the table unchanged). -/
theorem generateTasksForRound_noop :
    (∀ (cfg : TaskingConfig) (db : TaskDB) (rid : Nat),
        generateTasksForRound cfg [] db rid = Except.ok db)
    ∧ (∀ (cfg : TaskingConfig) (reg : SamplerRegistry) (db : TaskDB) (rid : Nat)
        (s : String) (f : SamplerFn),
        registryGet reg s = some f →
        (f cfg.maxTasksPerSubnet = SamplerOutcome.list [] ∨
          ∃ tag, f cfg.maxTasksPerSubnet = SamplerOutcome.nonList tag) →
        generateTasksForSubnet cfg reg db rid s = db) := by
  constructor
  · intro cfg db rid
    simp [generateTasksForRound, registryKeys]
  · intro cfg reg db rid s f hget hout
    rcases hout with hout | ⟨tag, hout⟩
    · simp [generateTasksForSubnet, generateTasksForSubnetBody, hget, hout]
    · simp [generateTasksForSubnet, generateTasksForSubnetBody, hget, hout]

/-- C7 witness: at concrete inputs — an empty registry, and a subnet whose
sampler returns an empty list — no rows are inserted. -/
theorem generateTasksForRound_noop_witness :
    generateTasksForRound tcfgEx [] [] 1 = Except.ok []
    ∧ generateTasksForSubnet tcfgEx [("walrus", fun _ => SamplerOutcome.list [])] [] 1 "walrus"
        = [] := by
  refine ⟨generateTasksForRound_noop.1 tcfgEx [] 1, ?_⟩
  exact generateTasksForRound_noop.2 tcfgEx [("walrus", fun _ => SamplerOutcome.list [])] [] 1
    "walrus" (fun _ => SamplerOutcome.list []) (by simp [registryGet, List.find?]) (Or.inl rfl)

/-- C9: the per-subnet step consults its sampler only at the configured
capacity hint `maxTasksPerSubnet` (two samplers agreeing there are
indistinguishable), and whatever non-empty list the sampler returns is
inserted in full — the rows appended are exactly the sampler's payloads,
with no truncation. -/
theorem sampler_capacity_hint_full_insert (cfg : TaskingConfig) (db : TaskDB)
    (rid : Nat) (s : String) (f g : SamplerFn) :
    (f cfg.maxTasksPerSubnet = g cfg.maxTasksPerSubnet →
      generateTasksForSubnet cfg [(s, f)] db rid s
        = generateTasksForSubnet cfg [(s, g)] db rid s)
    ∧ (∀ ts, f cfg.maxTasksPerSubnet = SamplerOutcome.list ts → 0 < ts.length →
        generateTasksForSubnet cfg [(s, f)] db rid s
          = db ++ ts.map (fun t => taskRow rid s t)
        ∧ (generateTasksForSubnet cfg [(s, f)] db rid s).length = db.length + ts.length) := by
  have hget : ∀ (h : SamplerFn), registryGet [(s, h)] s = some h := by
    intro h
    simp [registryGet, List.find?]
  constructor
  · intro hfg
    simp [generateTasksForSubnet, generateTasksForSubnetBody, hget, hfg]
  · intro ts hf hlen
    constructor
    · simp [generateTasksForSubnet, generateTasksForSubnetBody, hget, hf, hlen, storeTasks]
    · simp [generateTasksForSubnet, generateTasksForSubnetBody, hget, hf, hlen, storeTasks]

/-- C9 witness: a concrete sampler returning two payloads at the capacity
hint has both inserted, and agreement at the hint yields equal results. -/
theorem sampler_capacity_hint_full_insert_witness :
    generateTasksForSubnet tcfgEx [("walrus", fun _ => SamplerOutcome.list ["t1", "t2"])] [] 7
        "walrus"
      = [taskRow 7 "walrus" "t1", taskRow 7 "walrus" "t2"] := by
  have h := (sampler_capacity_hint_full_insert tcfgEx [] 7 "walrus"
    (fun _ => SamplerOutcome.list ["t1", "t2"]) (fun _ => SamplerOutcome.list ["t1", "t2"])).2
    ["t1", "t2"] rfl (by decide)
  simpa using h.1

/-- C6: with two registered samplers at distinct subnets `a` and `b`,
where `a`'s sampler throws and `b`'s returns two payloads,
`generateTasksForRound` completes without error, appends exactly `b`'s
two rows, leaves the set of rows attributable to `a` unchanged, and — if
the table held no rows for this round — the round's rows are exactly
`b`'s two tasks. -/
theorem generateTasksForRound_isolation (cfg : TaskingConfig) (db : TaskDB) (rid : Nat)
    (a b m t1 t2 : String) (hab : a ≠ b) :
    generateTasksForRound cfg
        (registrySet (registrySet [] a (fun _ => SamplerOutcome.throws m)) b
          (fun _ => SamplerOutcome.list [t1, t2])) db rid
      = Except.ok (db ++ [taskRow rid b t1, taskRow rid b t2])
    ∧ ((db ++ [taskRow rid b t1, taskRow rid b t2]).filter (fun row => row.subnet == a)
        = db.filter (fun row => row.subnet == a))
    ∧ (db.filter (fun row => row.round_id == rid) = [] →
        (db ++ [taskRow rid b t1, taskRow rid b t2]).filter (fun row => row.round_id == rid)
          = [taskRow rid b t1, taskRow rid b t2]) := by
  have hba : (b == a) = false := beq_eq_false_iff_ne.mpr (Ne.symm hab)
  have hab' : (a == b) = false := beq_eq_false_iff_ne.mpr hab
  have hreg : registrySet (registrySet [] a (fun _ => SamplerOutcome.throws m)) b
      (fun _ => SamplerOutcome.list [t1, t2])
      = [(a, fun _ => SamplerOutcome.throws m), (b, fun _ => SamplerOutcome.list [t1, t2])] := by
    simp [registrySet, hab']
  refine ⟨?_, ?_, ?_⟩
  · rw [hreg]
    simp [generateTasksForRound, registryKeys, generateTasksForSubnet,
      generateTasksForSubnetBody, registryGet, List.find?, hab', hba, storeTasks, taskRow]
  · simp [List.filter_append, taskRow, hba]
  · intro hnone
    simp [List.filter_append, taskRow, hnone]

/-- C6 witness: the concrete end-to-end scenario of the spec — sampler
`"arweave"` throws, sampler `"walrus"` returns two payloads — yields
exactly walrus's two rows. -/
theorem generateTasksForRound_isolation_witness :
    generateTasksForRound tcfgEx
        (registrySet (registrySet [] "arweave" (fun _ => SamplerOutcome.throws "boom")) "walrus"
          (fun _ => SamplerOutcome.list ["task1", "task2"])) [] 3
      = Except.ok
          [{ round_id := 3, subnet := "walrus", task_definition := "task1" },
           { round_id := 3, subnet := "walrus", task_definition := "task2" }] := by
  have h := (generateTasksForRound_isolation tcfgEx [] 3 "arweave" "walrus" "boom"
    "task1" "task2" (by decide)).1
  simpa using h

/-- C10: the active-round read (`SELECT ... WHERE active = true ORDER BY
start_time DESC LIMIT 1`) always yields an active stored round whose
`start_time` is greatest among all active rounds — also in
duplicate-active states — it yields one whenever any active round exists,
`start()`'s resume decision uses exactly this row, and the transition's
previous-round decision is exactly this read. -/
theorem getActiveRound_selects_latest :
    (∀ (db : RoundsDB) (r : Round), db.getActiveRound = some r →
        r.active = true ∧ r ∈ db.rounds
        ∧ ∀ x ∈ db.rounds, x.active = true → x.start_time ≤ r.start_time)
    ∧ (∀ (db : RoundsDB) (x : Round), x ∈ db.rounds → x.active = true →
        ∃ r, db.getActiveRound = some r)
    ∧ (∀ (cfg : RoundConfig) (now : Int) (db : RoundsDB) (r : Round),
        db.getActiveRound = some r →
        startService cfg now false { db := db, currentRound := none, loopScheduled := false }
          = Except.ok { db := db, currentRound := some r, loopScheduled := true })
    ∧ (∀ (cfg : RoundConfig) (now : Int) (db : RoundsDB),
        (startNewRoundTrace cfg now db).previous = db.getActiveRound) := by
  refine ⟨?_, ?_, ?_, ?_⟩
  · intro db r h
    refine ⟨(getActiveRound_active_mem h).1, (getActiveRound_active_mem h).2, ?_⟩
    intro x hx hact
    exact selectLatest_le _ _ h x (List.mem_filter.mpr ⟨hx, by simpa using hact⟩)
  · intro db x hx hact
    cases h : db.getActiveRound with
    | none =>
      have := getActiveRound_eq_none h x hx
      simp [hact] at this
    | some r => exact ⟨r, rfl⟩
  · intro cfg now db r h
    simp [startService, initializeRoundE, h]
  · intro cfg now db
    simp [startNewRoundTrace]

/-- C10 witness: in a concrete duplicate-active state the read returns the
most recently started active round, and `start()` resumes exactly it. -/
theorem getActiveRound_selects_latest_witness :
    (rLate.active = true ∧ rLate ∈ dbDup.rounds
      ∧ rEarly.start_time ≤ rLate.start_time)
    ∧ startService cfgEx 50 false { db := dbDup, currentRound := none, loopScheduled := false }
        = Except.ok { db := dbDup, currentRound := some rLate, loopScheduled := true } := by
  have hsel : dbDup.getActiveRound = some rLate := by decide
  have h1 := getActiveRound_selects_latest.1 dbDup rLate hsel
  refine ⟨⟨h1.1, h1.2.1, ?_⟩, ?_⟩
  · exact h1.2.2 rEarly (by decide) (by decide)
  · exact getActiveRound_selects_latest.2.2.1 cfgEx 50 dbDup rLate hsel

theorem wf_id_lt {db : RoundsDB} (hwf : db.wf = true) :
    ∀ r ∈ db.rounds, r.id < db.nextId := by
  simpa [RoundsDB.wf, List.all_eq_true] using hwf

theorem mem_eq_of_length_le_one {α : Type} {l : List α} (h : l.length ≤ 1) {a b : α}
    (ha : a ∈ l) (hb : b ∈ l) : a = b := by
  cases l with
  | nil => cases ha
  | cons x t =>
    cases t with
    | nil =>
      rw [List.mem_singleton] at ha hb
      rw [ha, hb]
    | cons y u =>
      simp [List.length_cons] at h

/-- The shape of the rounds table after one full `#startNewRound`
transition starting from a table whose active rows (if any) all carry the
id of the previous active round: the old rows with that id are
deactivated, every other old row is untouched, and the new round sits at
the end, active. -/
theorem startNewRound_final_rounds_some (cfg : RoundConfig) (now : Int) (db : RoundsDB)
    (p : Round) (hwf : db.wf = true) (hprev : db.getActiveRound = some p) :
    (startNewRound cfg now db).2.rounds
      = db.rounds.map (fun r => if r.id == p.id then { r with active := false } else r)
        ++ [{ id := db.nextId, start_time := now, end_time := now + cfg.roundDurationMs,
              active := true }]
    ∧ (startNewRound cfg now db).2.nextId = db.nextId + 1 := by
  have hpmem := (getActiveRound_active_mem hprev).2
  have hpid : p.id < db.nextId := wf_id_lt hwf p hpmem
  have hpne : (db.nextId == p.id) = false :=
    beq_eq_false_iff_ne.mpr (Nat.ne_of_gt hpid)
  constructor
  · simp only [startNewRound, startNewRoundTrace, createNewRound, changeRoundActive, hprev]
    rw [List.map_append, List.map_append, List.map_map]
    congr 1
    · apply List.map_congr_left
      intro r hr
      have hrid : r.id < db.nextId := wf_id_lt hwf r hr
      have hne : (r.id == db.nextId) = false := beq_eq_false_iff_ne.mpr (Nat.ne_of_lt hrid)
      by_cases hid : r.id = p.id
      · simp [Function.comp, hid, hne]
        omega
      · simp [Function.comp, beq_eq_false_iff_ne.mpr hid, hne]
    · have hne2 : ¬db.nextId = p.id := Nat.ne_of_gt hpid
      simp [hpne, hne2]
  · simp only [startNewRound, startNewRoundTrace, createNewRound, changeRoundActive, hprev]

/-- Same shape, starting from a table with no active row: no deactivation
happens and the old rows are untouched. -/
theorem startNewRound_final_rounds_none (cfg : RoundConfig) (now : Int) (db : RoundsDB)
    (hwf : db.wf = true) (hprev : db.getActiveRound = none) :
    (startNewRound cfg now db).2.rounds
      = db.rounds
        ++ [{ id := db.nextId, start_time := now, end_time := now + cfg.roundDurationMs,
              active := true }]
    ∧ (startNewRound cfg now db).2.nextId = db.nextId + 1 := by
  constructor
  · simp only [startNewRound, startNewRoundTrace, createNewRound, changeRoundActive, hprev]
    rw [List.map_append]
    congr 1
    · conv_rhs => rw [show db.rounds = db.rounds.map id from (List.map_id _).symm]
      apply List.map_congr_left
      intro r hr
      have hrid : r.id < db.nextId := wf_id_lt hwf r hr
      simp [beq_eq_false_iff_ne.mpr (Nat.ne_of_lt hrid)]
    · simp
  · simp only [startNewRound, startNewRoundTrace, createNewRound, changeRoundActive, hprev]

/-- C1: a full `#startNewRound` transition (create the new round, generate
its tasks — which touches only the tasks table — deactivate the previous
round, activate the new one), run from any settled table satisfying the
at-most-one-active invariant, ends with exactly one active row; in
particular the invariant is preserved at every settled instant reached
this way.  Well-formedness of the id sequence is also preserved. -/
theorem startNewRound_single_active (cfg : RoundConfig) (now : Int) (db : RoundsDB)
    (hwf : db.wf = true) (hle : countActive db ≤ 1) :
    countActive (startNewRound cfg now db).2 = 1
    ∧ (startNewRound cfg now db).2.wf = true := by
  cases hprev : db.getActiveRound with
  | none =>
    have hshape := startNewRound_final_rounds_none cfg now db hwf hprev
    have hinact := getActiveRound_eq_none hprev
    constructor
    · rw [countActive, hshape.1, List.countP_append]
      have hz : db.rounds.countP (fun r => r.active) = 0 := by
        rw [List.countP_eq_zero]
        intro r hr
        simp [hinact r hr]
      simp [hz]
    · rw [RoundsDB.wf, List.all_eq_true]
      intro r hr
      rw [hshape.1] at hr
      rw [hshape.2]
      rcases List.mem_append.mp hr with hr | hr
      · have := wf_id_lt hwf r hr
        simp
        omega
      · rw [List.mem_singleton] at hr
        subst hr
        simp
  | some p =>
    have hp := getActiveRound_active_mem hprev
    have hshape := startNewRound_final_rounds_some cfg now db p hwf hprev
    have honly : ∀ r ∈ db.rounds, r.active = true → r = p := by
      intro r hr hact
      have hrf : r ∈ db.rounds.filter (fun r => r.active) :=
        List.mem_filter.mpr ⟨hr, by simpa using hact⟩
      have hpf : p ∈ db.rounds.filter (fun r => r.active) :=
        List.mem_filter.mpr ⟨hp.2, by simpa using hp.1⟩
      have hlen : (db.rounds.filter (fun r => r.active)).length ≤ 1 := by
        have hc : countActive db = (db.rounds.filter (fun r => r.active)).length := by
          simp [countActive, List.countP_eq_length_filter]
        omega
      exact mem_eq_of_length_le_one hlen hrf hpf
    constructor
    · rw [countActive, hshape.1, List.countP_append]
      have hz : (db.rounds.map
          (fun r => if r.id == p.id then { r with active := false } else r)).countP
            (fun r => r.active) = 0 := by
        rw [List.countP_eq_zero]
        intro x hx
        rcases List.mem_map.mp hx with ⟨r, hr, rfl⟩
        by_cases hid : r.id = p.id
        · simp [beq_iff_eq.mpr hid]
        · have hract : r.active = false := by
            by_contra hcon
            have : r = p := honly r hr (by simpa using hcon)
            exact hid (by rw [this])
          simp [beq_eq_false_iff_ne.mpr hid, hract]
      rw [hz]
      simp
    · rw [RoundsDB.wf, List.all_eq_true]
      intro r hr
      rw [hshape.1] at hr
      rw [hshape.2]
      rcases List.mem_append.mp hr with hr | hr
      · rcases List.mem_map.mp hr with ⟨x, hx, rfl⟩
        have := wf_id_lt hwf x hx
        by_cases hid : x.id = p.id
        · simp [beq_iff_eq.mpr hid]
          omega
        · simp [beq_eq_false_iff_ne.mpr hid]
          omega
      · rw [List.mem_singleton] at hr
        subst hr
        simp

/-- C1 witness: transitioning a concrete one-active-round table ends with
exactly one active row. -/
theorem startNewRound_single_active_witness :
    countActive (startNewRound cfgEx 50 dbPast).2 = 1
    ∧ (startNewRound cfgEx 50 dbPast).2.wf = true := by
  exact startNewRound_single_active cfgEx 50 dbPast (by decide) (by decide)

theorem selectLatest_append_last (l : List Round) (m : Round)
    (h : ∀ x ∈ l, x.start_time < m.start_time) : selectLatest (l ++ [m]) = some m := by
  induction l with
  | nil => simp [selectLatest]
  | cons y t ih =>
    have ht := ih (fun x hx => h x (List.mem_cons_of_mem _ hx))
    simp only [List.cons_append, selectLatest, List.append_eq, ht]
    rw [if_pos (h y (List.mem_cons_self _ _))]

/-- C2 counterexample: in the transition a fresh round is inserted with
`active = true` — the `INSERT` binds `true` for the `active` column — so
at a concrete input the claim that it is "not marked active at insertion
time" fails. -/
theorem createNewRound_inserts_active_cex :
    ¬(createNewRound cfgEx 0 dbEmpty).1.active = false := by
  decide

/-- C2 amended: the new round row is created with `active = true` already
at insertion time; the Orchestrator then populates it with tasks after
the insert and before the deactivate/activate updates, so at
task-generation time the rounds table is exactly the old table plus the
new active row — and (when all prior rounds started strictly earlier) the
new round is already the one returned by the active-round query, i.e. it
is exposed as active before task generation rather than after. -/
theorem startNewRound_created_active_before_tasks (cfg : RoundConfig) (now : Int)
    (db : RoundsDB) :
    (startNewRoundTrace cfg now db).newRound.active = true
    ∧ (startNewRoundTrace cfg now db).dbAtTaskGeneration.rounds
        = db.rounds ++ [(startNewRoundTrace cfg now db).newRound]
    ∧ ((∀ r ∈ db.rounds, r.start_time < now) →
        (startNewRoundTrace cfg now db).dbAtTaskGeneration.getActiveRound
          = some (startNewRoundTrace cfg now db).newRound) := by
  refine ⟨?_, ?_, ?_⟩
  · simp [startNewRoundTrace, createNewRound]
  · simp [startNewRoundTrace, createNewRound]
  · intro hbefore
    simp only [startNewRoundTrace, createNewRound, RoundsDB.getActiveRound]
    rw [List.filter_append]
    have hfnew : List.filter (fun r => r.active)
        [({ id := db.nextId, start_time := now, end_time := now + cfg.roundDurationMs,
            active := true } : Round)]
        = [{ id := db.nextId, start_time := now, end_time := now + cfg.roundDurationMs,
             active := true }] := by
      simp
    rw [hfnew]
    apply selectLatest_append_last
    intro x hx
    exact hbefore x (List.mem_filter.mp hx).1

/-- C2 amended witness: at a concrete table whose only round started in
the past, the freshly inserted round is active, present at
task-generation time, and already returned by the active-round query. -/
theorem startNewRound_created_active_before_tasks_witness :
    (startNewRoundTrace cfgEx 0 dbPast).newRound.active = true
    ∧ (startNewRoundTrace cfgEx 0 dbPast).dbAtTaskGeneration.rounds
        = dbPast.rounds ++ [(startNewRoundTrace cfgEx 0 dbPast).newRound]
    ∧ (startNewRoundTrace cfgEx 0 dbPast).dbAtTaskGeneration.getActiveRound
        = some (startNewRoundTrace cfgEx 0 dbPast).newRound := by
  have h := startNewRound_created_active_before_tasks cfgEx 0 dbPast
  exact ⟨h.1, h.2.1, h.2.2 (by decide)⟩

/-- C3 counterexample: with a failing round-creation write and no
pre-existing active round, `start()` resolves normally — `Except.ok` with
the state unchanged — instead of reporting the error to its caller; the
claim's propagation half fails at this concrete input (the check loop is
indeed not scheduled). -/
theorem startService_swallows_creation_error_cex :
    startService cfgEx 0 true stEmpty = Except.ok stEmpty := by
  rfl

/-- C3 amended: if creating the initial round fails, `start()` catches and
logs the error — it returns normally, reporting nothing to its caller —
and leaves the service exactly as it was: no periodic check loop
scheduled, no current round, database untouched. -/
theorem startService_creation_failure (cfg : RoundConfig) (now : Int) (s : ServiceState)
    (hnoactive : s.db.getActiveRound = none) :
    startService cfg now true s = Except.ok s := by
  simp [startService, initializeRoundE, startNewRoundE, createNewRoundE, hnoactive]

/-- C3 amended witness: the concrete empty-state instance. -/
theorem startService_creation_failure_witness :
    startService cfgEx 5 true stEmpty = Except.ok stEmpty := by
  exact startService_creation_failure cfgEx 5 stEmpty (by decide)

/-- C4 counterexample: starting from a table whose single active round has
`end_time` in the past (instant 0), `start()` resumes that expired round
unchanged — one round in total, still active — instead of producing the 2
rounds (original inactive, new active) the claim requires; this revision
of `#initializeRound` performs no expiry check. -/
theorem startService_resumes_expired_cex :
    startService cfgEx 0 false stPast
      = Except.ok { db := dbPast, currentRound := some rPast, loopScheduled := true }
    ∧ dbPast.rounds.length = 1
    ∧ rPast.end_time ≤ 0
    ∧ rPast.active = true := by
  refine ⟨by rfl, by rfl, by decide, by rfl⟩

/-- C4 amended: with exactly one active round, `start()` resumes that
exact round unconditionally — whether its `end_time` is future or past —
leaving the table unchanged (no new round).  For an expired round the
transition instead happens at the first periodic check after `start()`:
that tick leaves 2 rounds in total, the original one inactive, and a new
active round whose `start_time` is the tick instant, which is at or after
the original's `end_time` (strictly after whenever the tick fires
strictly later than `end_time`). -/
theorem startService_resume_and_first_tick (cfg : RoundConfig) (now tickNow : Int)
    (db : RoundsDB) (r : Round) (hact : db.getActiveRound = some r) :
    startService cfg now false { db := db, currentRound := none, loopScheduled := false }
      = Except.ok { db := db, currentRound := some r, loopScheduled := true }
    ∧ (∀ n, db = { rounds := [r], nextId := n } → r.id < n → r.end_time ≤ tickNow →
        roundCheckTick cfg tickNow { db := db, currentRound := some r, loopScheduled := true }
          = ServiceState.mk
              (RoundsDB.mk
                [{ r with active := false },
                 Round.mk n tickNow (tickNow + cfg.roundDurationMs) true]
                (n + 1))
              (some (Round.mk n tickNow (tickNow + cfg.roundDurationMs) true))
              true) := by
  constructor
  · simp [startService, initializeRoundE, hact]
  · intro n hdb hid hend
    subst hdb
    have h1 : (n == r.id) = false := beq_eq_false_iff_ne.mpr (by omega)
    have h2 : (r.id == n) = false := beq_eq_false_iff_ne.mpr (by omega)
    have h3 : ¬n = r.id := by omega
    have h4 : ¬r.id = n := by omega
    simp [roundCheckTick, hend, startNewRound, startNewRoundTrace, hact,
      createNewRound, changeRoundActive, h1, h2, h3, h4]

/-- C4 amended witness: the concrete expired-round state — `start()`
resumes it, and the first tick (at instant 0) performs the transition to
2 rounds with the new one active. -/
theorem startService_resume_and_first_tick_witness :
    startService cfgEx 0 false stPast
      = Except.ok { db := dbPast, currentRound := some rPast, loopScheduled := true }
    ∧ roundCheckTick cfgEx 0 { db := dbPast, currentRound := some rPast, loopScheduled := true }
        = ServiceState.mk
            (RoundsDB.mk
              [{ rPast with active := false },
               Round.mk 1 0 (0 + cfgEx.roundDurationMs) true]
              2)
            (some (Round.mk 1 0 (0 + cfgEx.roundDurationMs) true))
            true := by
  have h := startService_resume_and_first_tick cfgEx 0 0 dbPast rPast (by decide)
  exact ⟨h.1, h.2 1 (by rfl) (by decide) (by decide)⟩

end SubnetApi
